import Mathlib

/-!
Verification of the Insider-Threat-Detection feature pipeline.

The development shallowly embeds the two Python modules that carry the
pipeline's logic:

* `src/feature_engineer.py` — `run_feature_engineering_from_files` reads up to
  three CSV sources (logon, http, device), counts events per user in each
  (`df['user'].value_counts()`), and outer-joins the three count series
  (`pd.concat(..., axis=1).fillna(0).astype(int)`).
* `src/app_streamlit.py` — `main` validates an uploaded feature table's
  columns, scores the table with a loaded detector (`model.predict(features)`),
  derives a `status` column, and filters rows by count ranges and status.

CSV frames are embedded as lists of rows; a cell that pandas would read as NaN
(missing value) is `none`.  pandas `int64` cells are embedded as `Int`.
Row order of the aggregated frame is not semantically significant (spec §4.1),
so the embedding fixes first-appearance order for the index union; every
theorem below is stated order-insensitively.
-/

namespace InsiderThreat

/-- Row of a logon or device CSV.  The code accesses only the `user` column by
name (`pd.read_csv(f)['user']`); a missing user cell reads as NaN (`none`). -/
structure NamedRow where
  user : Option String
deriving DecidableEq, Repr

/-- Row of the headerless http CSV: cells by position, read with
`pd.read_csv(http_file, header=None, names=['id','date','user','pc','url'])`.
A missing cell is `none`. -/
abbrev HttpRow := List (Option String)

/-- The `user` cell of an http row: the names list assigns `user` to the cell
at index 2 (the third positional column).  A row too short to have a third
cell reads as NaN there. -/
def httpUser (r : HttpRow) : Option String := r.getD 2 none

/-- The values that `value_counts` counts for a logon/device source:
`df['user']` with missing values dropped (pandas default `dropna=True`). -/
def userList (rows : List NamedRow) : List String := rows.filterMap (fun r => r.user)

/-- The values that `value_counts` counts for the http source. -/
def httpUserList (rows : List HttpRow) : List String := rows.filterMap httpUser

/-- Column label of a series inside `pd.concat([...], axis=1)`: a named series
contributes its name; a series created as `pd.Series(dtype=int)` has no name
and is labelled by a positional integer counting the unnamed series. -/
inductive ColLabel where
  | named (s : String)
  | pos (n : Nat)
deriving DecidableEq, Repr

/-- Labels `pd.concat` assigns along axis 1, given each series' optional name;
`k` counts the unnamed series seen so far. -/
def concatLabels : List (Option String) → Nat → List ColLabel
  | [], _ => []
  | some s :: rest, k => ColLabel.named s :: concatLabels rest k
  | none :: rest, k => ColLabel.pos k :: concatLabels rest (k + 1)

/-- Union of index values in first-appearance order, skipping values already
seen — the index of the outer join performed by `pd.concat(..., axis=1)`. -/
def dedupAcc : List String → List String → List String
  | [], _ => []
  | a :: t, seen => if a ∈ seen then dedupAcc t seen else a :: dedupAcc t (a :: seen)

/-- The aggregated frame: three columns (in the order logon, http, device of
the `pd.concat` list) over rows indexed by user.  Each row carries the user and
its three count cells in column order. -/
structure AggResult where
  labels : List ColLabel
  rows : List (String × Int × Int × Int)
deriving DecidableEq, Repr

/-- Values counted for a possibly absent logon/device source: an absent file
contributes the empty series `pd.Series(dtype=int)`. -/
def namedSourceUsers : Option (List NamedRow) → List String
  | some rs => userList rs
  | none => []

/-- Values counted for the possibly absent http source. -/
def httpSourceUsers : Option (List HttpRow) → List String
  | some rs => httpUserList rs
  | none => []

/-- `run_feature_engineering_from_files` (feature_engineer.py lines 9-23, and
identically app_streamlit.py lines 9-19): per-source `value_counts`, then
`pd.concat([logon_counts, http_counts, device_counts], axis=1)` (outer join on
user), `fillna(0)` and `astype(int)`.  An absent source (file argument `None`)
contributes the empty unnamed series `pd.Series(dtype=int)`; a present source
contributes a series named after itself. -/
def run_feature_engineering_from_files
    (logon_file : Option (List NamedRow)) (http_file : Option (List HttpRow))
    (device_file : Option (List NamedRow)) : AggResult :=
  let logonUsers := namedSourceUsers logon_file
  let httpUsers := httpSourceUsers http_file
  let deviceUsers := namedSourceUsers device_file
  let allUsers := dedupAcc (logonUsers ++ httpUsers ++ deviceUsers) []
  { labels := concatLabels
      [logon_file.map (fun _ => "logon_count"),
       http_file.map (fun _ => "http_count"),
       device_file.map (fun _ => "device_count")] 0
    rows := allUsers.map (fun u =>
      (u, (logonUsers.count u : Int), (httpUsers.count u : Int),
       (deviceUsers.count u : Int))) }

/-- Look a user's row up in the aggregated frame (the frame is keyed by its
user index). -/
def lookupUser (t : AggResult) (u : String) : Option (Int × Int × Int) :=
  (t.rows.find? (fun r => r.1 == u)).map (fun r => r.2)

/-- Logon source of the worked example: rows for alice and bob. -/
def exLogon : List NamedRow := [⟨some "alice"⟩, ⟨some "bob"⟩]

/-- Device source of the worked example: one row for alice. -/
def exDevice : List NamedRow := [⟨some "alice"⟩]

/-- Http source of the worked example: three headerless rows whose third
positional cell (the `user` column) is bob, bob, carol. -/
def exHttp : List HttpRow :=
  [[some "1001", some "01/01/2010", some "bob", some "PC-1", some "http://x.example"],
   [some "1002", some "01/02/2010", some "bob", some "PC-1", some "http://y.example"],
   [some "1003", some "01/02/2010", some "carol", some "PC-2", some "http://z.example"]]

/-- Http row used to separate the third and the fourth positional columns:
its third cell is carol, its fourth cell is dave. -/
def cexHttpRow : HttpRow :=
  [some "i1", some "01/03/2010", some "carol", some "dave", some "http://w.example"]

/-- Required columns of an uploaded feature table (app_streamlit.py line 76). -/
def required_cols : Finset String := {"logon_count", "http_count", "device_count"}

/-- Schema validation of an uploaded feature table (app_streamlit.py lines
77-79).  Python `set(features.columns) < required_cols` is a STRICT subset
test; on rejection the message lists `required_cols - set(features.columns)`.
`some missing` models the rejected branch (error naming `missing`, features
set to None), `none` models acceptance. -/
def schemaCheck (columns : List String) : Option (Finset String) :=
  if columns.toFinset ⊂ required_cols then some (required_cols \ columns.toFinset) else none

/-- An uploaded feature frame after `pd.read_csv(..., index_col=0)`: named
columns over rows indexed by user; each row's cells align with `columns`. -/
structure DataFrame where
  columns : List String
  rows : List (String × List Int)
deriving DecidableEq, Repr

/-- The argument the code hands to the detector: `model.predict(features)`
(app_streamlit.py line 98) passes the ENTIRE features frame, extra columns
included — there is no projection onto the three count columns. -/
def scorerInput (features : DataFrame) : DataFrame := features

/-- `features['anomaly'].map({1:'Normal', -1:'Suspicious'})` on one
prediction; any other value maps to NaN (`none`). -/
def statusOf (p : Int) : Option String :=
  if p = 1 then some "Normal" else if p = -1 then some "Suspicious" else none

/-- A scored frame: the original columns plus `anomaly` and `status`
(app_streamlit.py lines 99-100). -/
structure ScoredFrame where
  columns : List String
  rows : List (String × List Int × Int × Option String)
deriving DecidableEq, Repr

/-- Scoring (app_streamlit.py lines 97-100): the detector's predictions on the
full frame become the `anomaly` column and `status` is derived from `anomaly`.
`predict` abstracts the loaded fitted model, one prediction per row. -/
def scoreFeatures (predict : DataFrame → List Int) (features : DataFrame) : ScoredFrame :=
  { columns := features.columns ++ ["anomaly", "status"]
    rows := ((features.rows).zip (predict (scorerInput features))).map
      (fun rp => (rp.1.1, rp.1.2, rp.2, statusOf rp.2)) }

/-- User index of a frame. -/
def dfUsers (df : DataFrame) : List String := df.rows.map (fun r => r.1)

/-- Cells of a named column: each row's cell at the column's position
(`none` when the row has no such cell). -/
def colCells (df : DataFrame) (c : String) : List (Option Int) :=
  df.rows.map (fun r => r.2.get? (df.columns.indexOf c))

/-- The anomaly labels of a scored frame. -/
def labelsOf (t : ScoredFrame) : List (Option String) := t.rows.map (fun r => r.2.2.2)

/-- A detector that distinguishes frames by their number of columns — one of
the functions that may stand behind the opaque fitted model (the repository's
IsolationForest is fitted on exactly three feature columns and raises on any
other width, so it too is sensitive to extra columns). -/
def cexPredict (df : DataFrame) : List Int :=
  df.rows.map (fun _ => if df.columns.length = 3 then 1 else -1)

/-- A detector assigning 1 (Normal) to every row. -/
def constOnePredict (df : DataFrame) : List Int := df.rows.map (fun _ => 1)

/-- Feature frame with exactly the three count columns. -/
def cexDf1 : DataFrame :=
  ⟨["logon_count", "http_count", "device_count"], [("alice", [1, 0, 1])]⟩

/-- The same frame with one extra column appended; it agrees with `cexDf1` on
the three count columns. -/
def cexDf2 : DataFrame :=
  ⟨["logon_count", "http_count", "device_count", "extra_notes"], [("alice", [1, 0, 1, 7])]⟩

/-- A row of the scored table as the filter section reads it: the three count
columns, the anomaly prediction and the derived status (app_streamlit.py
lines 99-131 access these by name). -/
structure ScoredRow where
  user : String
  logon_count : Int
  http_count : Int
  device_count : Int
  anomaly : Int
  status : Option String
deriving DecidableEq, Repr

/-- `int(series.min())` over a count column; the code computes it only on a
nonempty frame (on an empty one pandas yields NaN and `int(NaN)` raises). -/
def colMin : List Int → Int
  | [] => 0
  | x :: xs => xs.foldl min x

/-- `int(series.max())` over a count column. -/
def colMax : List Int → Int
  | [] => 0
  | x :: xs => xs.foldl max x

/-- `features['status'].isin(status_filter)` on one cell: a NaN status is
never a member. -/
def statusMatches (statusFilter : List String) (st : Option String) : Bool :=
  match st with
  | some s => statusFilter.contains s
  | none => false

/-- The filtered frame (app_streamlit.py lines 124-129): keep the rows whose
three counts lie within the slider ranges and whose status is selected. -/
def filterScored (t : List ScoredRow) (minL maxL minH maxH minD maxD : Int)
    (statusFilter : List String) : List ScoredRow :=
  t.filter (fun r =>
    decide (minL ≤ r.logon_count) && decide (r.logon_count ≤ maxL) &&
    decide (minH ≤ r.http_count) && decide (r.http_count ≤ maxH) &&
    decide (minD ≤ r.device_count) && decide (r.device_count ≤ maxD) &&
    statusMatches statusFilter r.status)

/-- Filtering with every slider at its full extent — the default
`(int(col.min()), int(col.max()))` of app_streamlit.py lines 104-118 — and the
status multiselect set to Suspicious only. -/
def fullExtentSuspicious (t : List ScoredRow) : List ScoredRow :=
  filterScored t
    (colMin (t.map (fun r => r.logon_count))) (colMax (t.map (fun r => r.logon_count)))
    (colMin (t.map (fun r => r.http_count))) (colMax (t.map (fun r => r.http_count)))
    (colMin (t.map (fun r => r.device_count))) (colMax (t.map (fun r => r.device_count)))
    ["Suspicious"]

/-- Two-row scored table used to instantiate the filter theorem. -/
def exScored : List ScoredRow :=
  [⟨"alice", 1, 0, 1, 1, some "Normal"⟩, ⟨"bob", 1, 2, 0, -1, some "Suspicious"⟩]

/-- Decimal text of a natural number: its base-10 digits rendered most
significant first ('0' for zero) — the text `to_csv` writes for a
non-negative integer cell. -/
def natToCell (n : Nat) : List Char :=
  if n = 0 then ['0'] else ((Nat.digits 10 n).map Nat.digitChar).reverse

/-- Decimal text of an `int64` cell: a leading minus sign for negatives. -/
def intToCell (i : Int) : List Char :=
  if i < 0 then '-' :: natToCell i.natAbs else natToCell i.toNat

/-- Parse one decimal digit character: a character between '0' and '9' stands
for its offset from '0' (code point 48). -/
def charToDigit? (c : Char) : Option Nat :=
  if '0' ≤ c ∧ c ≤ '9' then some (c.toNat - 48) else none

/-- Parse an unsigned decimal cell, as `read_csv` type inference does before
electing int64: every character must be a digit and the cell nonempty. -/
def cellToNat? (cs : List Char) : Option Nat :=
  if cs.isEmpty then none
  else (cs.mapM charToDigit?).map (fun ds => Nat.ofDigits 10 ds.reverse)

/-- Parse a signed decimal cell. -/
def cellToInt? (cs : List Char) : Option Int :=
  if cs.head? = some '-' then (cellToNat? cs.tail).map (fun n => -(n : Int))
  else (cellToNat? cs).map (fun n => (n : Int))

/-- Text of a column label as `to_csv` writes it in the header row. -/
def renderLabel : ColLabel → List Char
  | ColLabel.named s => s.data
  | ColLabel.pos n => natToCell n

/-- `features.to_csv(path)` (feature_engineer.py line 36) as a grid of cells:
a header row (an empty cell for the unnamed index, then the column labels)
followed by one row per user: the user cell, then the three count cells as
decimal text. -/
def persistCSV (t : AggResult) : List (List (List Char)) :=
  ([] :: t.labels.map renderLabel)
    :: t.rows.map (fun r => [r.1.data, intToCell r.2.1, intToCell r.2.2.1, intToCell r.2.2.2])

/-- One body row under `pd.read_csv(path, index_col=0)`: cell 0 becomes the
user index, the remaining three cells parse as int64. -/
def parseRow (row : List (List Char)) : Option (String × Int × Int × Int) :=
  match row with
  | [ucell, c1, c2, c3] =>
      match cellToInt? c1, cellToInt? c2, cellToInt? c3 with
      | some a, some b, some c => some (String.mk ucell, a, b, c)
      | _, _, _ => none
  | _ => none

/-- `pd.read_csv(path, index_col=0)` (app_streamlit.py line 94) on a persisted
feature CSV: the header's tail names the columns, each body row yields a user
and three integer counts.  The user index is modelled as strings (the
repository's user identifiers are non-numeric text). -/
def reloadCSV (cells : List (List (List Char))) :
    Option (List String × List (String × Int × Int × Int)) :=
  match cells with
  | [] => none
  | header :: body =>
      (body.mapM parseRow).map (fun rows => ((header.drop 1).map String.mk, rows))

theorem mem_dedupAcc (l : List String) : ∀ (seen : List String) (u : String),
    u ∈ dedupAcc l seen ↔ (u ∈ l ∧ u ∉ seen) := by
  induction l with
  | nil => intro seen u; simp [dedupAcc]
  | cons a t ih =>
    intro seen u
    by_cases ha : a ∈ seen
    · simp only [dedupAcc, if_pos ha, ih]
      constructor
      · rintro ⟨hut, hus⟩
        exact ⟨List.mem_cons_of_mem _ hut, hus⟩
      · rintro ⟨hu, hus⟩
        rcases List.mem_cons.mp hu with rfl | hut
        · exact absurd ha hus
        · exact ⟨hut, hus⟩
    · simp only [dedupAcc, if_neg ha]
      constructor
      · intro hmem
        rcases List.mem_cons.mp hmem with rfl | htail
        · exact ⟨List.mem_cons_self _ _, ha⟩
        · rcases (ih _ u).mp htail with ⟨hut, hseen⟩
          have hns : u ∉ seen := fun hs => hseen (List.mem_cons_of_mem _ hs)
          exact ⟨List.mem_cons_of_mem _ hut, hns⟩
      · rintro ⟨hu, hus⟩
        rcases List.mem_cons.mp hu with rfl | hut
        · exact List.mem_cons_self _ _
        · by_cases hua : u = a
          · subst hua; exact List.mem_cons_self _ _
          · refine List.mem_cons_of_mem _ ((ih _ u).mpr ⟨hut, ?_⟩)
            intro hmem
            rcases List.mem_cons.mp hmem with rfl | hs
            · exact hua rfl
            · exact hus hs

theorem nodup_dedupAcc (l : List String) : ∀ (seen : List String), (dedupAcc l seen).Nodup := by
  induction l with
  | nil => intro seen; simp [dedupAcc]
  | cons a t ih =>
    intro seen
    by_cases ha : a ∈ seen
    · simpa only [dedupAcc, if_pos ha] using ih seen
    · simp only [dedupAcc, if_neg ha]
      refine List.nodup_cons.mpr ⟨?_, ih _⟩
      intro hmem
      exact ((mem_dedupAcc t _ a).mp hmem).2 (List.mem_cons_self _ _)

theorem count_filterMap_eq_countP {α : Type} (f : α → Option String) (l : List α) (u : String) :
    (l.filterMap f).count u = l.countP (fun a => f a == some u) := by
  induction l with
  | nil => rfl
  | cons a t ih =>
    cases hfa : f a with
    | none => simp [List.filterMap_cons, hfa, List.countP_cons, ih]
    | some b => simp [List.filterMap_cons, hfa, List.countP_cons, List.count_cons, ih]

theorem rows_run_eq (lf : Option (List NamedRow)) (hf : Option (List HttpRow))
    (df : Option (List NamedRow)) :
    (run_feature_engineering_from_files lf hf df).rows
      = (dedupAcc (namedSourceUsers lf ++ httpSourceUsers hf ++ namedSourceUsers df) []).map
          (fun u => (u, ((namedSourceUsers lf).count u : Int),
            ((httpSourceUsers hf).count u : Int), ((namedSourceUsers df).count u : Int))) := rfl

theorem lookupUser_run_eq (lf : Option (List NamedRow)) (hf : Option (List HttpRow))
    (df : Option (List NamedRow)) (u : String) (r : Int × Int × Int)
    (hl : lookupUser (run_feature_engineering_from_files lf hf df) u = some r) :
    r = (((namedSourceUsers lf).count u : Int), ((httpSourceUsers hf).count u : Int),
      ((namedSourceUsers df).count u : Int)) := by
  unfold lookupUser at hl
  rw [rows_run_eq] at hl
  rcases Option.map_eq_some'.mp hl with ⟨r0, hfind, hr0⟩
  have hmem := List.mem_of_find?_eq_some hfind
  have hbeq := List.find?_some hfind
  rcases List.mem_map.mp hmem with ⟨v, _, hv⟩
  subst hv
  have hvu : v = u := by simpa using hbeq
  subst hvu
  exact hr0.symm

/-- Claim C1: on the worked example (logon rows alice, bob; device row alice;
http rows for bob, bob, carol) the aggregation returns exactly three rows,
with alice mapped to counts (logon 1, http 0, device 1), bob to (1, 2, 0) and
carol to (0, 1, 0). -/
theorem C1_example_aggregation :
    (run_feature_engineering_from_files (some exLogon) (some exHttp) (some exDevice)).rows.length = 3 ∧
    lookupUser (run_feature_engineering_from_files (some exLogon) (some exHttp) (some exDevice)) "alice"
      = some (1, 0, 1) ∧
    lookupUser (run_feature_engineering_from_files (some exLogon) (some exHttp) (some exDevice)) "bob"
      = some (1, 2, 0) ∧
    lookupUser (run_feature_engineering_from_files (some exLogon) (some exHttp) (some exDevice)) "carol"
      = some (0, 1, 0) := by
  decide

/-- Claim C4 counterexample: the names list `['id','date','user','pc','url']`
assigns `user` to the third positional column, not the fourth.  On a source
whose single row has third cell carol and fourth cell dave, the claim says the
row contributes 1 to dave's http_count; in fact dave has no row at all and the
full contribution goes to carol. -/
theorem C4_counterexample_fourth_column :
    cexHttpRow.getD 3 none = some "dave" ∧
    lookupUser (run_feature_engineering_from_files (some []) (some [cexHttpRow]) (some []))
      "dave" = none ∧
    lookupUser (run_feature_engineering_from_files (some []) (some [cexHttpRow]) (some []))
      "carol" = some (0, 1, 0) := by
  decide

/-- Claim C4 amended: the aggregation reads the user identity of an http row
from the THIRD positional column of the five headerless columns; a user's
http_count equals the number of rows whose third cell holds that user. -/
theorem C4_amended_user_from_third_column (lf : Option (List NamedRow)) (h : List HttpRow)
    (df : Option (List NamedRow)) (u : String) (cl ch cd : Int)
    (hl : lookupUser (run_feature_engineering_from_files lf (some h) df) u = some (cl, ch, cd)) :
    ch = ((h.filter (fun r => r.getD 2 none == some u)).length : Int) := by
  have heq := lookupUser_run_eq lf (some h) df u (cl, ch, cd) hl
  have hch : ch = ((httpSourceUsers (some h)).count u : Int) := by
    simpa using congrArg (fun r => r.2.1) heq
  rw [hch]
  have : (httpSourceUsers (some h)).count u
      = (h.filter (fun r => r.getD 2 none == some u)).length := by
    rw [show httpSourceUsers (some h) = h.filterMap httpUser from rfl,
      count_filterMap_eq_countP, ← List.countP_eq_length_filter]
    rfl
  rw [this]

/-- Witness for `C4_amended_user_from_third_column` at the worked example:
bob's http_count 2 equals the number of example rows whose third cell is bob. -/
theorem C4_amended_witness :
    (2 : Int) = ((exHttp.filter (fun r => r.getD 2 none == some "bob")).length : Int) :=
  C4_amended_user_from_third_column (some exLogon) exHttp (some exDevice) "bob" 1 2 0 (by decide)

theorem filterMap_filter_isSome {α β : Type} (f : α → Option β) (l : List α) :
    (l.filter (fun a => (f a).isSome)).filterMap f = l.filterMap f := by
  induction l with
  | nil => rfl
  | cons a t ih =>
    cases hfa : f a with
    | none => simp [List.filter_cons, List.filterMap_cons, hfa, ih]
    | some b => simp [List.filter_cons, List.filterMap_cons, hfa, ih]

theorem length_filterMap_eq_length_filter {α β : Type} (f : α → Option β) (l : List α) :
    (l.filterMap f).length = (l.filter (fun a => (f a).isSome)).length := by
  induction l with
  | nil => rfl
  | cons a t ih =>
    cases hfa : f a with
    | none => simp [List.filter_cons, List.filterMap_cons, hfa, ih]
    | some b => simp [List.filter_cons, List.filterMap_cons, hfa, ih]

theorem sum_map_add_int {α : Type} (f g : α → Int) (l : List α) :
    (l.map (fun x => f x + g x)).sum = (l.map f).sum + (l.map g).sum := by
  induction l with
  | nil => rfl
  | cons a t ih => simp only [List.map_cons, List.sum_cons, ih]; ring

theorem sum_map_indicator_zero (idx : List String) (a : String) (ha : a ∉ idx) :
    (idx.map (fun u => if a = u then (1 : Int) else 0)).sum = 0 := by
  induction idx with
  | nil => rfl
  | cons b t ih =>
    have hab : a ≠ b := fun hc => ha (hc ▸ List.mem_cons_self _ _)
    have hat : a ∉ t := fun hmem => ha (List.mem_cons_of_mem _ hmem)
    simp [List.map_cons, List.sum_cons, hab, ih hat]

theorem sum_map_indicator_one (idx : List String) (a : String) (hnd : idx.Nodup)
    (ha : a ∈ idx) : (idx.map (fun u => if a = u then (1 : Int) else 0)).sum = 1 := by
  induction idx with
  | nil => cases ha
  | cons b t ih =>
    rcases List.mem_cons.mp ha with rfl | hat
    · have hnotmem : a ∉ t := (List.nodup_cons.mp hnd).1
      simp [List.map_cons, List.sum_cons, sum_map_indicator_zero t a hnotmem]
    · have hab : a ≠ b := by
        intro hcontra
        subst hcontra
        exact (List.nodup_cons.mp hnd).1 hat
      simp [List.map_cons, List.sum_cons, hab, ih (List.nodup_cons.mp hnd).2 hat]

theorem sum_counts_over_index (us : List String) :
    ∀ (idx : List String), idx.Nodup → (∀ u ∈ us, u ∈ idx) →
      (idx.map (fun u => (us.count u : Int))).sum = (us.length : Int) := by
  induction us with
  | nil => intro idx _ _; simp
  | cons a t ih =>
    intro idx hnd hall
    have hcast : ∀ u : String, ((a :: t).count u : Int)
        = (t.count u : Int) + (if a = u then (1 : Int) else 0) := by
      intro u
      by_cases hau : a = u
      · subst hau
        rw [List.count_cons_self]
        push_cast
        simp
      · have hne : u ≠ a := fun hc => hau hc.symm
        rw [List.count_cons_of_ne hne]
        simp [hau]
    calc (idx.map (fun u => ((a :: t).count u : Int))).sum
        = (idx.map (fun u => (t.count u : Int) + (if a = u then (1 : Int) else 0))).sum := by
          simp only [hcast]
      _ = (idx.map (fun u => (t.count u : Int))).sum
            + (idx.map (fun u => if a = u then (1 : Int) else 0)).sum :=
          sum_map_add_int _ _ idx
      _ = (t.length : Int) + 1 := by
          rw [ih idx hnd (fun u hu => hall u (List.mem_cons_of_mem _ hu)),
            sum_map_indicator_one idx a hnd (hall a (List.mem_cons_self _ _))]
      _ = ((a :: t).length : Int) := by
          simp only [List.length_cons]
          push_cast
          ring

theorem mem_allUsers_of_mem_source (l1 l2 l3 : List String) (u : String) :
    u ∈ l1 ++ l2 ++ l3 → u ∈ dedupAcc (l1 ++ l2 ++ l3) [] := by
  intro hu
  exact (mem_dedupAcc _ _ _).mpr ⟨hu, List.not_mem_nil u⟩

/-- Claim C5 counterexample: with the logon source absent, the absent source's
series is the unnamed `pd.Series(dtype=int)`, and `pd.concat` labels its column
with the positional integer 0 — the frame has no column named logon_count. -/
theorem C5_counterexample_unnamed_column :
    ColLabel.named "logon_count" ∉
      (run_feature_engineering_from_files none (some exHttp) (some exDevice)).labels ∧
    (run_feature_engineering_from_files none (some exHttp) (some exDevice)).labels
      = [ColLabel.pos 0, ColLabel.named "http_count", ColLabel.named "device_count"] := by
  decide

/-- Claim C5 amended: when one source is entirely absent, the returned frame
still has a column in that source's position whose value is 0 for every user
(never missing), but the column is labelled with the positional integer 0
instead of the absent source's count name. -/
theorem C5_amended_absent_source_zero_column :
    (∀ (h : List HttpRow) (d : List NamedRow),
      (run_feature_engineering_from_files none (some h) (some d)).labels
        = [ColLabel.pos 0, ColLabel.named "http_count", ColLabel.named "device_count"] ∧
      ∀ r ∈ (run_feature_engineering_from_files none (some h) (some d)).rows, r.2.1 = 0) ∧
    (∀ (l : List NamedRow) (d : List NamedRow),
      (run_feature_engineering_from_files (some l) none (some d)).labels
        = [ColLabel.named "logon_count", ColLabel.pos 0, ColLabel.named "device_count"] ∧
      ∀ r ∈ (run_feature_engineering_from_files (some l) none (some d)).rows, r.2.2.1 = 0) ∧
    (∀ (l : List NamedRow) (h : List HttpRow),
      (run_feature_engineering_from_files (some l) (some h) none).labels
        = [ColLabel.named "logon_count", ColLabel.named "http_count", ColLabel.pos 0] ∧
      ∀ r ∈ (run_feature_engineering_from_files (some l) (some h) none).rows, r.2.2.2 = 0) := by
  refine ⟨fun h d => ⟨rfl, ?_⟩, fun l d => ⟨rfl, ?_⟩, fun l h => ⟨rfl, ?_⟩⟩
  · intro r hr
    rw [rows_run_eq] at hr
    rcases List.mem_map.mp hr with ⟨v, _, hv⟩
    subst hv
    simp [namedSourceUsers]
  · intro r hr
    rw [rows_run_eq] at hr
    rcases List.mem_map.mp hr with ⟨v, _, hv⟩
    subst hv
    simp [httpSourceUsers]
  · intro r hr
    rw [rows_run_eq] at hr
    rcases List.mem_map.mp hr with ⟨v, _, hv⟩
    subst hv
    simp [namedSourceUsers]

/-- Witness for `C5_amended_absent_source_zero_column` at the worked example
with the logon source absent: bob's row carries 0 in the first column. -/
theorem C5_amended_witness :
    (run_feature_engineering_from_files none (some exHttp) (some exDevice)).labels
      = [ColLabel.pos 0, ColLabel.named "http_count", ColLabel.named "device_count"] ∧
    (("bob", (0 : Int), (2 : Int), (0 : Int)) : String × Int × Int × Int).2.1 = 0 :=
  ⟨(C5_amended_absent_source_zero_column.1 exHttp exDevice).1,
   (C5_amended_absent_source_zero_column.1 exHttp exDevice).2 ("bob", 0, 2, 0) (by decide)⟩

/-- Claim C6: every user appearing (with a present user field) in at least one
source has exactly one row in the aggregated frame, and for each source the
user does not appear in, that source's cell in the user's row is the integer 0
rather than a missing value. -/
theorem C6_unique_row_and_zero_fill (lf : Option (List NamedRow))
    (hf : Option (List HttpRow)) (df : Option (List NamedRow)) (u : String)
    (happ : u ∈ namedSourceUsers lf ∨ u ∈ httpSourceUsers hf ∨ u ∈ namedSourceUsers df) :
    ((run_feature_engineering_from_files lf hf df).rows.countP (fun r => r.1 == u)) = 1 ∧
    ∀ r ∈ (run_feature_engineering_from_files lf hf df).rows, r.1 = u →
      (u ∉ namedSourceUsers lf → r.2.1 = 0) ∧
      (u ∉ httpSourceUsers hf → r.2.2.1 = 0) ∧
      (u ∉ namedSourceUsers df → r.2.2.2 = 0) := by
  have hmem : u ∈ dedupAcc
      (namedSourceUsers lf ++ httpSourceUsers hf ++ namedSourceUsers df) [] := by
    apply mem_allUsers_of_mem_source
    rcases happ with h1 | h2 | h3
    · exact List.mem_append_left _ (List.mem_append_left _ h1)
    · exact List.mem_append_left _ (List.mem_append_right _ h2)
    · exact List.mem_append_right _ h3
  constructor
  · rw [rows_run_eq, List.countP_map]
    have : ((fun r : String × Int × Int × Int => r.1 == u) ∘
        (fun v => (v, ((namedSourceUsers lf).count v : Int),
          ((httpSourceUsers hf).count v : Int), ((namedSourceUsers df).count v : Int))))
        = fun v => v == u := rfl
    rw [this]
    exact List.count_eq_one_of_mem (nodup_dedupAcc _ _) hmem
  · intro r hr hru
    rw [rows_run_eq] at hr
    rcases List.mem_map.mp hr with ⟨v, _, hv⟩
    subst hv
    simp only at hru
    subst hru
    refine ⟨fun hnl => ?_, fun hnh => ?_, fun hnd => ?_⟩ <;>
      simp [List.count_eq_zero.mpr, *]

/-- Witness for `C6_unique_row_and_zero_fill`: alice has exactly one row on
the worked example. -/
theorem C6_witness :
    ((run_feature_engineering_from_files (some exLogon) (some exHttp) (some exDevice)).rows.countP
      (fun r => r.1 == "alice")) = 1 :=
  (C6_unique_row_and_zero_fill (some exLogon) (some exHttp) (some exDevice) "alice"
    (Or.inl (by decide))).1

/-- Claim C7: rows whose user field is missing are dropped by `value_counts`
(pandas `dropna=True`), so the aggregation does not abort and returns exactly
the frame computed from the sources with the malformed rows removed. -/
theorem C7_malformed_rows_excluded (l : List NamedRow) (h : List HttpRow) (d : List NamedRow) :
    run_feature_engineering_from_files (some l) (some h) (some d)
      = run_feature_engineering_from_files
          (some (l.filter (fun r => r.user.isSome)))
          (some (h.filter (fun r => (httpUser r).isSome)))
          (some (d.filter (fun r => r.user.isSome))) := by
  have hl : userList (l.filter (fun r => r.user.isSome)) = userList l :=
    filterMap_filter_isSome (fun r : NamedRow => r.user) l
  have hh : httpUserList (h.filter (fun r => (httpUser r).isSome)) = httpUserList h :=
    filterMap_filter_isSome httpUser h
  have hd : userList (d.filter (fun r => r.user.isSome)) = userList d :=
    filterMap_filter_isSome (fun r : NamedRow => r.user) d
  unfold run_feature_engineering_from_files
  simp only [namedSourceUsers, httpSourceUsers, hl, hh, hd, Option.map]

/-- Claim C10: with all three sources present, the sum of each count column
over all aggregated rows equals the number of rows of the corresponding source
whose user field is present — no well-formed event is lost or double-counted. -/
theorem C10_column_sums_conserve_events (l : List NamedRow) (h : List HttpRow)
    (d : List NamedRow) :
    ((run_feature_engineering_from_files (some l) (some h) (some d)).rows.map
        (fun r => r.2.1)).sum = ((l.filter (fun r => r.user.isSome)).length : Int) ∧
    ((run_feature_engineering_from_files (some l) (some h) (some d)).rows.map
        (fun r => r.2.2.1)).sum = ((h.filter (fun r => (httpUser r).isSome)).length : Int) ∧
    ((run_feature_engineering_from_files (some l) (some h) (some d)).rows.map
        (fun r => r.2.2.2)).sum = ((d.filter (fun r => r.user.isSome)).length : Int) := by
  have hnd := nodup_dedupAcc
    (namedSourceUsers (some l) ++ httpSourceUsers (some h) ++ namedSourceUsers (some d))
    ([] : List String)
  have hidx : ∀ us : List String,
      (∀ u ∈ us, u ∈ namedSourceUsers (some l) ++ httpSourceUsers (some h)
        ++ namedSourceUsers (some d)) →
      (∀ u ∈ us, u ∈ dedupAcc (namedSourceUsers (some l) ++ httpSourceUsers (some h)
        ++ namedSourceUsers (some d)) []) :=
    fun us hsub u hu => mem_allUsers_of_mem_source _ _ _ _ (hsub u hu)
  refine ⟨?_, ?_, ?_⟩
  · have h1 : ((run_feature_engineering_from_files (some l) (some h) (some d)).rows.map
        (fun r => r.2.1)).sum
        = ((dedupAcc (namedSourceUsers (some l) ++ httpSourceUsers (some h)
            ++ namedSourceUsers (some d)) []).map
            (fun u => ((namedSourceUsers (some l)).count u : Int))).sum := by
      rw [rows_run_eq, List.map_map]
      rfl
    rw [h1, sum_counts_over_index _ _ hnd
      (hidx _ (fun u hu => List.mem_append_left _ (List.mem_append_left _ hu)))]
    rw [show namedSourceUsers (some l) = l.filterMap (fun r => r.user) from rfl,
      length_filterMap_eq_length_filter]
  · have h1 : ((run_feature_engineering_from_files (some l) (some h) (some d)).rows.map
        (fun r => r.2.2.1)).sum
        = ((dedupAcc (namedSourceUsers (some l) ++ httpSourceUsers (some h)
            ++ namedSourceUsers (some d)) []).map
            (fun u => ((httpSourceUsers (some h)).count u : Int))).sum := by
      rw [rows_run_eq, List.map_map]
      rfl
    rw [h1, sum_counts_over_index _ _ hnd
      (hidx _ (fun u hu => List.mem_append_left _ (List.mem_append_right _ hu)))]
    rw [show httpSourceUsers (some h) = h.filterMap httpUser from rfl,
      length_filterMap_eq_length_filter]
  · have h1 : ((run_feature_engineering_from_files (some l) (some h) (some d)).rows.map
        (fun r => r.2.2.2)).sum
        = ((dedupAcc (namedSourceUsers (some l) ++ httpSourceUsers (some h)
            ++ namedSourceUsers (some d)) []).map
            (fun u => ((namedSourceUsers (some d)).count u : Int))).sum := by
      rw [rows_run_eq, List.map_map]
      rfl
    rw [h1, sum_counts_over_index _ _ hnd
      (hidx _ (fun u hu => List.mem_append_right _ hu))]
    rw [show namedSourceUsers (some d) = d.filterMap (fun r => r.user) from rfl,
      length_filterMap_eq_length_filter]

/-- Claim C2 counterexample: a table missing device_count but carrying an
extra column is NOT rejected — Python `set(columns) < required` is a strict
subset test, false as soon as any extra column is present. -/
theorem C2_counterexample_extra_column_passes :
    schemaCheck ["logon_count", "http_count", "asset_tag"] = none ∧
    "device_count" ∉ ["logon_count", "http_count", "asset_tag"] := by
  decide

/-- Claim C2 amended: an uploaded table missing a required column is rejected
with exactly the missing columns named IF AND ONLY IF it has no extra columns
(its column set is a strict subset of the required three); with any extra
column present the missing-column table is accepted unrejected. -/
theorem C2_amended_strict_subset_validation (columns : List String)
    (hmiss : "device_count" ∉ columns) :
    schemaCheck columns = some (required_cols \ columns.toFinset)
      ↔ ∀ c ∈ columns, c ∈ required_cols := by
  constructor
  · intro hsome c hc
    by_cases hss : columns.toFinset ⊂ required_cols
    · exact (Finset.ssubset_iff_subset_ne.mp hss).1 (List.mem_toFinset.mpr hc)
    · simp [schemaCheck, hss] at hsome
  · intro hall
    have hsub : columns.toFinset ⊆ required_cols := by
      intro c hcmem
      exact hall c (List.mem_toFinset.mp hcmem)
    have hss : columns.toFinset ⊂ required_cols := by
      refine Finset.ssubset_iff_subset_ne.mpr ⟨hsub, ?_⟩
      intro heq
      have hdc : "device_count" ∈ columns.toFinset := by
        rw [heq]; decide
      exact hmiss (List.mem_toFinset.mp hdc)
    simp [schemaCheck, hss]

/-- Witness for `C2_amended_strict_subset_validation`: the table with exactly
the columns logon_count, http_count is rejected naming exactly device_count. -/
theorem C2_amended_witness :
    required_cols \ (["logon_count", "http_count"] : List String).toFinset
      = {"device_count"} ∧
    schemaCheck ["logon_count", "http_count"]
      = some (required_cols \ (["logon_count", "http_count"] : List String).toFinset) :=
  ⟨by decide,
   (C2_amended_strict_subset_validation ["logon_count", "http_count"] (by decide)).mpr
     (by decide)⟩

/-- Claim C3 counterexample: two frames agreeing on users and on all three
count columns, differing only in an extra column, receive different labels —
the code passes the whole frame to the detector, so the label is not a
function of the three count columns alone. -/
theorem C3_counterexample_extra_column_changes_labels :
    dfUsers cexDf1 = dfUsers cexDf2 ∧
    colCells cexDf1 "logon_count" = colCells cexDf2 "logon_count" ∧
    colCells cexDf1 "http_count" = colCells cexDf2 "http_count" ∧
    colCells cexDf1 "device_count" = colCells cexDf2 "device_count" ∧
    labelsOf (scoreFeatures cexPredict cexDf1)
      ≠ labelsOf (scoreFeatures cexPredict cexDf2) := by
  decide

/-- Claim C3 amended: scoring passes the entire frame — extra columns included
— to the detector (no projection onto the three count columns), so labels may
depend on the extra columns; the extra columns themselves are preserved
unchanged in the scored output, whose columns are the input columns plus
anomaly and status. -/
theorem C3_amended_full_frame_to_scorer (predict : DataFrame → List Int) (df : DataFrame)
    (hlen : (predict df).length = df.rows.length) :
    scorerInput df = df ∧
    (scoreFeatures predict df).columns = df.columns ++ ["anomaly", "status"] ∧
    (scoreFeatures predict df).rows.map (fun r => (r.1, r.2.1)) = df.rows := by
  refine ⟨rfl, rfl, ?_⟩
  show ((df.rows.zip (predict df)).map
      (fun rp => (rp.1.1, rp.1.2, rp.2, statusOf rp.2))).map
      (fun r => (r.1, r.2.1)) = df.rows
  rw [List.map_map]
  have hcomp : ((fun r : String × List Int × Int × Option String => (r.1, r.2.1)) ∘
      (fun rp : (String × List Int) × Int => (rp.1.1, rp.1.2, rp.2, statusOf rp.2)))
      = Prod.fst := rfl
  rw [hcomp]
  exact List.map_fst_zip _ _ (le_of_eq hlen.symm)

/-- Witness for `C3_amended_full_frame_to_scorer` on the frame with an extra
column under the constant detector. -/
theorem C3_amended_witness :
    (scoreFeatures constOnePredict cexDf2).rows.map (fun r => (r.1, r.2.1)) = cexDf2.rows :=
  (C3_amended_full_frame_to_scorer constOnePredict cexDf2 (by decide)).2.2

theorem foldl_min_le_init (xs : List Int) : ∀ a : Int, xs.foldl min a ≤ a := by
  induction xs with
  | nil => intro a; exact le_refl a
  | cons x t ih => intro a; exact le_trans (ih (min a x)) (min_le_left a x)

theorem foldl_min_le_mem (xs : List Int) : ∀ (a b : Int), b ∈ xs → xs.foldl min a ≤ b := by
  induction xs with
  | nil => intro a b hb; cases hb
  | cons x t ih =>
    intro a b hb
    rcases List.mem_cons.mp hb with rfl | hbt
    · exact le_trans (foldl_min_le_init t (min a b)) (min_le_right a b)
    · exact ih (min a x) b hbt

theorem colMin_le_mem (l : List Int) (b : Int) (hb : b ∈ l) : colMin l ≤ b := by
  cases l with
  | nil => cases hb
  | cons x xs =>
    rcases List.mem_cons.mp hb with rfl | hbt
    · exact foldl_min_le_init xs b
    · exact foldl_min_le_mem xs x b hbt

theorem le_foldl_max_init (xs : List Int) : ∀ a : Int, a ≤ xs.foldl max a := by
  induction xs with
  | nil => intro a; exact le_refl a
  | cons x t ih => intro a; exact le_trans (le_max_left a x) (ih (max a x))

theorem le_foldl_max_mem (xs : List Int) : ∀ (a b : Int), b ∈ xs → b ≤ xs.foldl max a := by
  induction xs with
  | nil => intro a b hb; cases hb
  | cons x t ih =>
    intro a b hb
    rcases List.mem_cons.mp hb with rfl | hbt
    · exact le_trans (le_max_right a b) (le_foldl_max_init t (max a b))
    · exact ih (max a x) b hbt

theorem mem_le_colMax (l : List Int) (b : Int) (hb : b ∈ l) : b ≤ colMax l := by
  cases l with
  | nil => cases hb
  | cons x xs =>
    rcases List.mem_cons.mp hb with rfl | hbt
    · exact le_foldl_max_init xs b
    · exact le_foldl_max_mem xs x b hbt

theorem statusMatches_singleton (st : Option String) :
    statusMatches ["Suspicious"] st = (st == some "Suspicious") := by
  cases st with
  | none => rfl
  | some s =>
    have hopt : (some s == some "Suspicious") = (s == "Suspicious") := rfl
    rw [hopt]
    cases hsb : s == "Suspicious" with
    | false => simp [statusMatches, List.contains, List.elem, hsb]
    | true => simp [statusMatches, List.contains, List.elem, hsb]

/-- Claim C9: on a (nonempty) scored table, filtering with the status
multiselect at Suspicious only and every count slider at its full extent
returns exactly the rows whose status is Suspicious; every returned row is
Suspicious and the returned row count equals an independent count of
Suspicious labels. -/
theorem C9_suspicious_filter (t : List ScoredRow) (_hne : t ≠ []) :
    fullExtentSuspicious t = t.filter (fun r => r.status == some "Suspicious") ∧
    (∀ r ∈ fullExtentSuspicious t, r.status = some "Suspicious") ∧
    (fullExtentSuspicious t).length = t.countP (fun r => r.status == some "Suspicious") := by
  have hfilter : fullExtentSuspicious t
      = t.filter (fun r => r.status == some "Suspicious") := by
    apply List.filter_congr
    intro r hr
    have h1 := colMin_le_mem (t.map (fun r => r.logon_count)) r.logon_count
      (List.mem_map_of_mem _ hr)
    have h2 := mem_le_colMax (t.map (fun r => r.logon_count)) r.logon_count
      (List.mem_map_of_mem _ hr)
    have h3 := colMin_le_mem (t.map (fun r => r.http_count)) r.http_count
      (List.mem_map_of_mem _ hr)
    have h4 := mem_le_colMax (t.map (fun r => r.http_count)) r.http_count
      (List.mem_map_of_mem _ hr)
    have h5 := colMin_le_mem (t.map (fun r => r.device_count)) r.device_count
      (List.mem_map_of_mem _ hr)
    have h6 := mem_le_colMax (t.map (fun r => r.device_count)) r.device_count
      (List.mem_map_of_mem _ hr)
    rw [decide_eq_true h1, decide_eq_true h2, decide_eq_true h3, decide_eq_true h4,
      decide_eq_true h5, decide_eq_true h6, statusMatches_singleton]
    simp
  refine ⟨hfilter, ?_, ?_⟩
  · intro r hr
    rw [hfilter] at hr
    exact eq_of_beq ((List.mem_filter.mp hr).2)
  · rw [hfilter, List.countP_eq_length_filter]

/-- Witness for `C9_suspicious_filter` on a two-row scored table. -/
theorem C9_witness :
    fullExtentSuspicious exScored = exScored.filter (fun r => r.status == some "Suspicious") :=
  (C9_suspicious_filter exScored (by decide)).1

theorem charToDigit?_digitChar (d : Nat) (hd : d < 10) :
    charToDigit? (Nat.digitChar d) = some d := by
  interval_cases d <;> decide

theorem mapM_digitChar (ds : List Nat) (h : ∀ x ∈ ds, x < 10) :
    (ds.map Nat.digitChar).mapM charToDigit? = some ds := by
  induction ds with
  | nil => rfl
  | cons d t ih =>
    have hd : d < 10 := h d (List.mem_cons_self _ _)
    have ht := ih (fun x hx => h x (List.mem_cons_of_mem _ hx))
    rw [List.map_cons, List.mapM_cons, charToDigit?_digitChar d hd, ht]
    rfl

theorem cellToNat?_natToCell (n : Nat) : cellToNat? (natToCell n) = some n := by
  by_cases hn : n = 0
  · subst hn; decide
  · have hne : Nat.digits 10 n ≠ [] := Nat.digits_ne_nil_iff_ne_zero.mpr hn
    have hmapM : (((Nat.digits 10 n).reverse).map Nat.digitChar).mapM charToDigit?
        = some (Nat.digits 10 n).reverse :=
      mapM_digitChar _ (fun x hx =>
        Nat.digits_lt_base (by norm_num) (List.mem_reverse.mp hx))
    rw [natToCell, if_neg hn, cellToNat?]
    rw [if_neg (by simp [hne] :
      ¬((((Nat.digits 10 n).map Nat.digitChar).reverse).isEmpty = true))]
    rw [← List.map_reverse, hmapM]
    simp [Nat.ofDigits_digits]

theorem natToCell_chars_are_digits (n : Nat) :
    ∀ c ∈ natToCell n, ∃ d, d < 10 ∧ c = Nat.digitChar d := by
  intro c hc
  by_cases hn : n = 0
  · subst hn
    simp [natToCell] at hc
    exact ⟨0, by norm_num, by rw [hc]; rfl⟩
  · rw [natToCell, if_neg hn] at hc
    rcases List.mem_map.mp (List.mem_reverse.mp hc) with ⟨d, hd, rfl⟩
    exact ⟨d, Nat.digits_lt_base (by norm_num) hd, rfl⟩

theorem digitChar_ne_dash (d : Nat) (hd : d < 10) : Nat.digitChar d ≠ '-' := by
  interval_cases d <;> decide

theorem cellToInt?_intToCell_nonneg (i : Int) (hi : 0 ≤ i) :
    cellToInt? (intToCell i) = some i := by
  rw [intToCell, if_neg (not_lt.mpr hi)]
  have hhead : ¬((natToCell i.toNat).head? = some '-') := by
    cases hcs : natToCell i.toNat with
    | nil => simp
    | cons c rest =>
      simp only [List.head?]
      intro hc
      obtain ⟨d, hd, hcd⟩ :=
        natToCell_chars_are_digits i.toNat c (hcs ▸ List.mem_cons_self _ _)
      exact digitChar_ne_dash d hd (by rw [← hcd]; exact Option.some.inj hc)
  rw [cellToInt?, if_neg hhead, cellToNat?_natToCell]
  simp [Int.toNat_of_nonneg hi]

theorem parseRow_persist (r : String × Int × Int × Int)
    (h1 : 0 ≤ r.2.1) (h2 : 0 ≤ r.2.2.1) (h3 : 0 ≤ r.2.2.2) :
    parseRow [r.1.data, intToCell r.2.1, intToCell r.2.2.1, intToCell r.2.2.2] = some r := by
  simp only [parseRow, cellToInt?_intToCell_nonneg _ h1, cellToInt?_intToCell_nonneg _ h2,
    cellToInt?_intToCell_nonneg _ h3]

theorem mapM_parseRow_persist (rows : List (String × Int × Int × Int))
    (h : ∀ r ∈ rows, 0 ≤ r.2.1 ∧ 0 ≤ r.2.2.1 ∧ 0 ≤ r.2.2.2) :
    ((rows.map (fun r =>
        [r.1.data, intToCell r.2.1, intToCell r.2.2.1, intToCell r.2.2.2])).mapM parseRow)
      = some rows := by
  induction rows with
  | nil => rfl
  | cons r t ih =>
    obtain ⟨h1, h2, h3⟩ := h r (List.mem_cons_self _ _)
    have ht := ih (fun x hx => h x (List.mem_cons_of_mem _ hx))
    rw [List.map_cons, List.mapM_cons, parseRow_persist r h1 h2 h3, ht]
    rfl

/-- Claim C8: every aggregated row's three counts are non-negative integers,
and persisting the aggregated frame as CSV then reloading it yields the same
users with the same counts (and the three named count columns). -/
theorem C8_nonneg_counts_and_csv_roundtrip (l : List NamedRow) (h : List HttpRow)
    (d : List NamedRow) :
    (∀ r ∈ (run_feature_engineering_from_files (some l) (some h) (some d)).rows,
      0 ≤ r.2.1 ∧ 0 ≤ r.2.2.1 ∧ 0 ≤ r.2.2.2) ∧
    reloadCSV (persistCSV (run_feature_engineering_from_files (some l) (some h) (some d)))
      = some (["logon_count", "http_count", "device_count"],
          (run_feature_engineering_from_files (some l) (some h) (some d)).rows) := by
  have hpos : ∀ r ∈ (run_feature_engineering_from_files (some l) (some h) (some d)).rows,
      0 ≤ r.2.1 ∧ 0 ≤ r.2.2.1 ∧ 0 ≤ r.2.2.2 := by
    intro r hr
    rw [rows_run_eq] at hr
    rcases List.mem_map.mp hr with ⟨v, _, hv⟩
    subst hv
    exact ⟨Int.natCast_nonneg _, Int.natCast_nonneg _, Int.natCast_nonneg _⟩
  refine ⟨hpos, ?_⟩
  show reloadCSV (([] :: _) :: _) = _
  rw [reloadCSV, mapM_parseRow_persist _ hpos]
  rfl

/-- Witness for `C8_nonneg_counts_and_csv_roundtrip` on the worked example. -/
theorem C8_witness :
    reloadCSV (persistCSV
        (run_feature_engineering_from_files (some exLogon) (some exHttp) (some exDevice)))
      = some (["logon_count", "http_count", "device_count"],
          (run_feature_engineering_from_files (some exLogon) (some exHttp) (some exDevice)).rows) :=
  (C8_nonneg_counts_and_csv_roundtrip exLogon exHttp exDevice).2

end InsiderThreat
